import Mathlib

/-!
Verification of the Indicator-Feature-Clustering-Signal pipeline of the
stock-analysis repository.

The development shallowly embeds the Python sources:

* `StockAnalyzer` (`backend/app/services/data_analyzer.py`, and the legacy
  duplicate `data_analyzer.py` at the repository root): RSI, relative volume,
  and the per-field missing-value policy of
  `prepare_features_for_clustering`.
* `UnsupervisedStrategyAnalyzer` (`backend/app/services/predictor.py`):
  `__init__`, `train`, `predict`, `evaluate`.
* The route-level metric helpers of `backend/app/routes/prediction.py`:
  `calculate_strategy_metrics`, `calculate_baseline_metrics`, and the
  orchestration of `get_stock_prediction`.

Pandas/NumPy floats are modelled by the type `PF` below: a rational number,
NaN, or a signed infinity, with the IEEE-style propagation rules that the
relevant operations exhibit (0/0 = NaN, x/0 = ±inf for x ≠ 0, comparisons
with NaN are false).  Exact rationals stand for binary floats; none of the
verified claims concerns rounding.
-/

set_option maxHeartbeats 1000000

namespace Stock

/-- A pandas/NumPy scalar: NaN, +inf, -inf, or a finite value (modelled as
an exact rational). -/
inductive PF where
  | nan : PF
  | inf : PF
  | ninf : PF
  | fin (q : ℚ) : PF
deriving DecidableEq, Repr

namespace PF

/-- Is the value finite? -/
def isFin : PF → Bool
  | fin _ => true
  | _ => false

/-- The rational carried by a finite value (junk `0` otherwise). -/
def toQ : PF → ℚ
  | fin q => q
  | _ => 0

/-- IEEE-style addition as NumPy performs it on float64. -/
def add : PF → PF → PF
  | nan, _ => nan
  | _, nan => nan
  | fin a, fin b => fin (a + b)
  | inf, ninf => nan
  | ninf, inf => nan
  | inf, _ => inf
  | _, inf => inf
  | ninf, _ => ninf
  | _, ninf => ninf

/-- IEEE-style subtraction as NumPy performs it on float64. -/
def sub : PF → PF → PF
  | nan, _ => nan
  | _, nan => nan
  | fin a, fin b => fin (a - b)
  | inf, inf => nan
  | ninf, ninf => nan
  | inf, _ => inf
  | _, inf => ninf
  | ninf, _ => ninf
  | _, ninf => inf

/-- IEEE-style division as NumPy performs it on float64 arrays
(`0/0 = NaN`, `x/0 = ±inf` for finite `x ≠ 0`; rationals carry no signed
zero, matching the nonnegative divisors arising in this code base). -/
def div : PF → PF → PF
  | nan, _ => nan
  | _, nan => nan
  | fin a, fin b =>
      if b ≠ 0 then fin (a / b)
      else if a = 0 then nan
      else if 0 < a then inf
      else ninf
  | fin _, inf => fin 0
  | fin _, ninf => fin 0
  | inf, fin b => if 0 ≤ b then inf else ninf
  | ninf, fin b => if 0 ≤ b then ninf else inf
  | inf, inf => nan
  | inf, ninf => nan
  | ninf, inf => nan
  | ninf, ninf => nan

/-- Nonnegative-or-NaN: the values that gain/loss series can take. -/
def NN (x : PF) : Prop := x = nan ∨ ∃ q : ℚ, 0 ≤ q ∧ x = fin q

end PF

/-- `series.rolling(window=w).mean()` evaluated at position `i` (with the
pandas default `min_periods = w`): defined iff the window is complete and
every entry in it is finite, in which case it is the arithmetic mean of the
`w` entries ending at `i`. -/
def rollingMeanAt (xs : List PF) (w : ℕ) (i : ℕ) : PF :=
  if i + 1 < w then PF.nan
  else
    let win := (xs.take (i + 1)).drop (i + 1 - w)
    if win.all PF.isFin then PF.fin ((win.map PF.toQ).sum / (w : ℚ))
    else PF.nan

/-- `Series.diff()`: NaN at position 0, `x[i] - x[i-1]` afterwards. -/
def diffSeries (xs : List ℚ) : List PF :=
  match xs with
  | [] => []
  | _ :: rest => PF.nan :: List.zipWith (fun b a => PF.fin (b - a)) rest xs

/-- `gains[gains < 0] = 0` applied pointwise (NaN compares false, so NaN is
kept). -/
def clipGain : PF → PF
  | PF.fin q => if q < 0 then PF.fin 0 else PF.fin q
  | PF.nan => PF.nan
  | PF.inf => PF.inf
  | PF.ninf => PF.fin 0

/-- `losses[losses > 0] = 0` followed by `abs`, applied pointwise. -/
def clipLoss : PF → PF
  | PF.fin q => if 0 < q then PF.fin 0 else PF.fin (-q)
  | PF.nan => PF.nan
  | PF.inf => PF.fin 0
  | PF.ninf => PF.inf

/-- The `gains` series of `StockAnalyzer.calculate_rsi`. -/
def rsiGains (closes : List ℚ) : List PF := (diffSeries closes).map clipGain

/-- The `losses` series of `StockAnalyzer.calculate_rsi`. -/
def rsiLosses (closes : List ℚ) : List PF := (diffSeries closes).map clipLoss

/-- `avg_gains = gains.rolling(window).mean()`. -/
def avgGains (closes : List ℚ) (w : ℕ) : List PF :=
  (List.range closes.length).map (rollingMeanAt (rsiGains closes) w)

/-- `avg_losses = losses.rolling(window).mean()`. -/
def avgLosses (closes : List ℚ) (w : ℕ) : List PF :=
  (List.range closes.length).map (rollingMeanAt (rsiLosses closes) w)

/-- `100 - (100 / (1 + rs))` for one value of `rs`. -/
def rsiFromRS (rs : PF) : PF :=
  PF.sub (PF.fin 100) (PF.div (PF.fin 100) (PF.add (PF.fin 1) rs))

/-- `StockAnalyzer.calculate_rsi` (`backend/app/services/data_analyzer.py`
lines 118-146): simple rolling means of the positive and negative parts of
the day-over-day close differences, then `RS = avg_gain/avg_loss` and
`RSI = 100 - 100/(1+RS)`. -/
def calculate_rsi (closes : List ℚ) (w : ℕ) : List PF :=
  (List.zipWith PF.div (avgGains closes w) (avgLosses closes w)).map rsiFromRS

/-- `StockAnalyzer.calculate_relative_volume`
(`backend/app/services/data_analyzer.py` lines 192-212):
`volume / rolling_mean(volume, window)` with zero means first replaced by
NaN and any inf, -inf or NaN result replaced by the sentinel `0.0001`. -/
def calculate_relative_volume (volume : List ℚ) (w : ℕ) : List PF :=
  (List.range volume.length).map fun i =>
    let ma := rollingMeanAt (volume.map PF.fin) w i
    let ma := if ma = PF.fin 0 then PF.nan else ma
    let rv := PF.div (PF.fin ((volume.getD i 0))) ma
    match rv with
    | PF.inf => PF.fin (1 / 10000)
    | PF.ninf => PF.fin (1 / 10000)
    | PF.nan => PF.fin (1 / 10000)
    | PF.fin q => PF.fin q

/-- Legacy `StockAnalyzer.calculate_relative_volume` (`data_analyzer.py`
lines 192-203 at the repository root): the raw ratio
`volume / rolling_mean(volume, window)` with no sentinel substitution. -/
def calculate_relative_volume_legacy (volume : List ℚ) (w : ℕ) : List PF :=
  (List.range volume.length).map fun i =>
    PF.div (PF.fin (volume.getD i 0)) (rollingMeanAt (volume.map PF.fin) w i)

/-! ### Missing-value policy of `prepare_features_for_clustering`

A pandas column with missing entries is a `List (Option ℚ)` (`none` = NaN).
`DataFrame.fillna(method='ffill')` / `'bfill'` and scalar `fillna` act on
each column independently, so the per-field policy of
`prepare_features_for_clustering` is the composition of the field's
assembly-time fill (lines 236-269 of `backend/app/services/data_analyzer.py`)
with the trailing frame-wide
`features.fillna(method='ffill').fillna(method='bfill')` (line 272). -/

/-- Forward fill with an explicit carry. -/
def ffillAux {α : Type} (carry : Option α) : List (Option α) → List (Option α)
  | [] => []
  | none :: rest => carry :: ffillAux carry rest
  | some x :: rest => some x :: ffillAux (some x) rest

/-- `fillna(method='ffill')` on one column. -/
def ffill {α : Type} (xs : List (Option α)) : List (Option α) := ffillAux none xs

/-- `fillna(method='bfill')` on one column. -/
def bfill {α : Type} (xs : List (Option α)) : List (Option α) :=
  (ffill xs.reverse).reverse

/-- Scalar `fillna(d)` on one column. -/
def fillna {α : Type} (d : α) (xs : List (Option α)) : List (Option α) :=
  xs.map fun o => some (o.getD d)

/-- The eight feature fields assembled by `prepare_features_for_clustering`. -/
inductive FeatureField where
  | return_1d | vol | momentum_20d | rsi | bb_position
  | dollar_volume | relative_volume | garman_klass_vol
deriving DecidableEq, Repr

/-- The actual per-field missing-value resolution of the backend
`prepare_features_for_clustering` (lines 229-278): each field receives its
assembly-time treatment — scalar defaults for `return_1d` (0), `rsi` (50),
`bb_position` (0.5), `relative_volume` (1), a forward fill for `vol`,
`dollar_volume` and `garman_klass_vol` — and afterwards the whole frame is
forward-filled then backward-filled.  For `momentum_20d` the guard
`if '20d' in momentum_dict:` (line 248) never matches, because
`calculate_momentum` keys its dictionary as `momentum_5d` …
`momentum_50d`; the executed branch is `features['momentum_20d'] = 0`,
which broadcasts the scalar 0 over the index — the whole column becomes
constant 0 and the computed momentum values (the input `col`, used here
only for its length) are discarded. -/
def resolveField (f : FeatureField) (col : List (Option ℚ)) : List (Option ℚ) :=
  let assembled :=
    match f with
    | .return_1d => fillna 0 col
    | .vol => ffill col
    | .momentum_20d => col.map fun _ => some 0
    | .rsi => fillna 50 col
    | .bb_position => fillna (1/2) col
    | .dollar_volume => ffill col
    | .relative_volume => fillna 1 col
    | .garman_klass_vol => ffill col
  bfill (ffill assembled)

/-- Modelled from the spec (§4.2): the claimed per-field policy — first
forward-fill, then backward-fill, and only then replace gaps that still
remain with the neutral defaults `rsi → 50`, `bb_position → 0.5`,
`relative_volume → 1`, `0` for all other fields.  Stated only to be compared
with `resolveField`, the policy the source actually implements. -/
def resolveFieldSpec (f : FeatureField) (col : List (Option ℚ)) : List (Option ℚ) :=
  let d : ℚ :=
    match f with
    | .rsi => 50
    | .bb_position => 1/2
    | .relative_volume => 1
    | _ => 0
  fillna d (bfill (ffill col))

/-- A `PF` series as an option column (NaN and infinities are missing). -/
def pfToOpt (xs : List PF) : List (Option ℚ) :=
  xs.map fun x => match x with | PF.fin q => some q | _ => none

/-! ### Route-level metric helpers (`backend/app/routes/prediction.py`) -/

/-- A value appearing in the metric dictionaries: the Python string
`"None"`, a float NaN, a finite float (exact rational), the expression
`(m/std) * sqrt(x)` with `std = sqrt(v)` kept symbolically, or the
expression `b ** e - 1` kept symbolically. -/
inductive MVal where
  | str (s : String) : MVal
  | nanv : MVal
  | fin (q : ℚ) : MVal
  | sharpe (m v x : ℚ) : MVal
  | rpow (b e : ℚ) : MVal
deriving DecidableEq, Repr

/-- Is the metric value a number (possibly NaN) rather than a string? -/
def MVal.isNumeric : MVal → Bool
  | .str _ => false
  | _ => true

/-- `Series.mean()`. -/
def sampleMean (xs : List ℚ) : ℚ := xs.sum / (xs.length : ℚ)

/-- The square of `Series.std()` (pandas sample standard deviation,
`ddof = 1`).  Meaningful only for two or more observations; every caller
below branches on the length first, mirroring the source's handling of the
NaN that pandas produces for a single observation.  Note `std() != 0` in the
source is equivalent to `sampleVar ≠ 0` since the variance is nonnegative. -/
def sampleVar (xs : List ℚ) : ℚ :=
  (xs.map fun x => (x - sampleMean xs) ^ 2).sum / ((xs.length : ℚ) - 1)

/-- `returns[predictions == 1]` for index-aligned series of equal length. -/
def tradedReturns (preds rets : List ℚ) : List ℚ :=
  ((preds.zip rets).filter fun p => decide (p.1 = 1)).map Prod.snd

/-- `(1 + xs).cumprod()`. -/
def cumprod (xs : List ℚ) : List ℚ :=
  (xs.scanl (fun acc r => acc * (1 + r)) 1).tail

/-- `expanding(min_periods=1).max()`: running maximum. -/
def runningMaxAux (m : ℚ) : List ℚ → List ℚ
  | [] => []
  | x :: rest => max m x :: runningMaxAux (max m x) rest

/-- Running maximum of a series. -/
def runningMax : List ℚ → List ℚ
  | [] => []
  | x :: rest => x :: runningMaxAux x rest

/-- The strategy metric dictionary returned by `calculate_strategy_metrics`. -/
structure StrategyMetrics where
  sharpe_ratio : MVal
  annual_return : MVal
  win_rate : MVal
  max_drawdown : MVal
  total_trades : ℕ
  winning_trades : ℕ
  strategy_status : Option String
deriving DecidableEq, Repr

/-- `calculate_strategy_metrics` (`backend/app/routes/prediction.py` lines
13-78).  `idx` is the (integer day number) index shared by the two series;
`preds` and `rets` are their values.  The division `(c - p) / p` in the
drawdown uses rational division (`x / 0 = 0` in Lean), reachable only when
some cumulative product is zero, i.e. some traded return is exactly `-1`;
no claim depends on that corner. -/
def calculate_strategy_metrics (idx : List ℤ) (preds rets : List ℚ) :
    StrategyMetrics :=
  let strategy_returns := tradedReturns preds rets
  let total_trades := strategy_returns.length
  if total_trades = 0 then
    { sharpe_ratio := .str "None"
      annual_return := .str "None"
      win_rate := .str "None"
      max_drawdown := .str "None"
      total_trades := 0
      winning_trades := 0
      strategy_status :=
        some "HOLD - No trading signals produced in the last 20 trading days" }
  else
    let winning_trades := (strategy_returns.filter fun r => decide (0 < r)).length
    let win_rate : ℚ := (winning_trades : ℚ) / (total_trades : ℚ)
    let sharpe : MVal :=
      if 1 < total_trades then
        if sampleVar strategy_returns ≠ 0 then
          .sharpe (sampleMean strategy_returns) (sampleVar strategy_returns)
            (252 * (total_trades : ℚ) / (rets.length : ℚ))
        else .fin 0
      else .fin 0
    let cumulative_return := (strategy_returns.map fun r => 1 + r).prod - 1
    let annual : MVal :=
      match idx.head?, idx.getLast? with
      | some a, some b =>
          if 0 < b - a then
            .rpow (1 + cumulative_return) (1461 / (4 * ((b - a : ℤ) : ℚ)))
          else .fin 0
      | _, _ => .fin 0
    let cumulative_returns := cumprod strategy_returns
    let peak := runningMax cumulative_returns
    let drawdown := List.zipWith (fun c p => (c - p) / p) cumulative_returns peak
    { sharpe_ratio := sharpe
      annual_return := annual
      win_rate := .fin win_rate
      max_drawdown := .fin (drawdown.foldl min (drawdown.headD 0))
      total_trades := total_trades
      winning_trades := winning_trades
      strategy_status := none }

/-- The baseline metric dictionary returned by `calculate_baseline_metrics`. -/
structure BaselineMetrics where
  accuracy : ℚ
  sharpe_ratio : MVal
  annual_return : ℚ
deriving DecidableEq, Repr

/-- `calculate_baseline_metrics` (`backend/app/routes/prediction.py` lines
80-111): buy-and-hold metrics over the full window's daily returns. -/
def calculate_baseline_metrics (rets : List ℚ) : BaselineMetrics :=
  if rets.length = 0 then
    { accuracy := 0, sharpe_ratio := .fin 0, annual_return := 0 }
  else
    let accuracy : ℚ := ((rets.filter fun r => decide (0 < r)).length : ℚ) / (rets.length : ℚ)
    if 1 < rets.length then
      let daily_mean := sampleMean rets
      let sharpe : MVal :=
        if sampleVar rets ≠ 0 then .sharpe daily_mean (sampleVar rets) 252
        else .fin 0
      let annual_return : ℚ :=
        if -1 < daily_mean then (1 + daily_mean) ^ (252 : ℕ) - 1 else -1
      { accuracy := accuracy, sharpe_ratio := sharpe, annual_return := annual_return }
    else
      { accuracy := accuracy, sharpe_ratio := .fin 0, annual_return := 0 }

/-! ### `UnsupervisedStrategyAnalyzer` (`backend/app/services/predictor.py`)

A pandas DataFrame is modelled as an association list of named columns.
The sklearn calls (`StandardScaler.fit_transform`, `KMeans.fit_predict`)
are external library code, not part of this repository: their composed
outcome — one cluster label per row — is passed to `train` as the
parameter `labels`, and every theorem below quantifies over it. -/

/-- A DataFrame: named columns of rationals, in insertion order. -/
abbrev DF : Type := List (String × List ℚ)

namespace DF

/-- The column names, in order. -/
def keys (df : DF) : List String := df.map Prod.fst

/-- A column's values, if the column exists. -/
def colOpt (df : DF) (name : String) : Option (List ℚ) := List.lookup name df

/-- A column's values (empty when absent). -/
def col (df : DF) (name : String) : List ℚ := (colOpt df name).getD []

/-- The number of rows (length of the first column). -/
def nrows (df : DF) : ℕ :=
  match df with
  | [] => 0
  | (_, c) :: _ => c.length

/-- `df[name] = values`: overwrite in place when the column exists,
append a new column otherwise. -/
def insertCol (df : DF) (name : String) (values : List ℚ) : DF :=
  if name ∈ keys df then
    df.map fun p => if p.1 = name then (name, values) else p
  else df ++ [(name, values)]

end DF

/-- The per-cluster `sharpe` value of the backend `train`:
`(mean/std) if std != 0 else 0`.  For a single-member cluster pandas'
`std()` is NaN, `NaN != 0` is `True`, and `mean/NaN` is NaN (`nanv`);
otherwise `std != 0` is equivalent to a nonzero sample variance, and the
value `mean / sqrt(variance)` is kept symbolically as `msv`. -/
inductive CSharpe where
  | nanv : CSharpe
  | zero : CSharpe
  | msv (m v : ℚ) : CSharpe
deriving DecidableEq, Repr

/-- One entry of `self.cluster_performance`. -/
structure ClusterStats where
  mean_return : ℚ
  sharpe : CSharpe
  size : ℕ
  win_rate : ℚ
deriving DecidableEq, Repr

/-- The statistics `train` records for one (nonempty) cluster. -/
def mkStats (rets : List ℚ) : ClusterStats :=
  { mean_return := sampleMean rets
    sharpe :=
      if rets.length ≤ 1 then .nanv
      else if sampleVar rets = 0 then .zero
      else .msv (sampleMean rets) (sampleVar rets)
    size := rets.length
    win_rate := ((rets.filter fun r => decide (0 < r)).length : ℚ) / (rets.length : ℚ) }

/-- The mutable state of an `UnsupervisedStrategyAnalyzer` instance:
`self.data`, `self.n_clusters`, `self.clusters` (None before `train`), and
the dict `self.cluster_performance` (a partial map from cluster id). -/
structure UState where
  data : DF
  n_clusters : ℕ
  clusters : Option (List ℕ)
  cluster_performance : ℕ → Option ClusterStats

/-- `__init__(data, n_clusters)`: stores the caller's frame as is (no
copy), `clusters = None`, `cluster_performance = {}`. -/
def UState.init (data : DF) (n_clusters : ℕ) : UState :=
  { data := data, n_clusters := n_clusters, clusters := none
    cluster_performance := fun _ => none }

/-- `train(self)` (lines 52-71): `labels` stands for
`self.model.fit_predict(self.scaler.fit_transform(features))`, the fitted
sklearn labelling of the rows.  Writes the `cluster` column into
`self.data`, then records `{mean_return, sharpe, size, win_rate}` for every
cluster id in `range(n_clusters)` that has at least one member. -/
def UState.train (s : UState) (labels : List ℕ) : UState :=
  let data' := s.data.insertCol "cluster" (labels.map fun (l : ℕ) => (l : ℚ))
  let clusterReturns : ℕ → List ℚ := fun c =>
    (((data'.col "cluster").zip (data'.col "return_1d")).filter
        fun p => decide (p.1 = (c : ℚ))).map Prod.snd
  { data := data'
    n_clusters := s.n_clusters
    clusters := some labels
    cluster_performance := fun c =>
      if c < s.n_clusters ∧ 0 < (clusterReturns c).length then
        some (mkStats (clusterReturns c))
      else s.cluster_performance c }

/-- The return series of cluster `c` exactly as `train` gathers it:
`self.data[self.data['cluster'] == cluster]['return_1d']` on the frame into
which the `cluster` column has just been written. -/
def clusterReturnsOf (data : DF) (labels : List ℕ) (c : ℕ) : List ℚ :=
  let data' := data.insertCol "cluster" (labels.map fun (l : ℕ) => (l : ℚ))
  (((data'.col "cluster").zip (data'.col "return_1d")).filter
      fun p => decide (p.1 = (c : ℚ))).map Prod.snd

/-- `stats['sharpe'] > 0.2` as the source evaluates it on floats: false on
NaN and on the 0 sentinel; for `mean/std = m/sqrt(v)` (with `v > 0` by
construction) equivalent to `0 < m ∧ v < 25 m²`. -/
def sharpeGt02 : CSharpe → Bool
  | .nanv => false
  | .zero => false
  | .msv m v => decide (0 < m) && decide (v < 25 * m ^ 2)

/-- The `good_performance` conjunction of `predict` (lines 93-97). -/
def goodPerformance (stats : ClusterStats) : Bool :=
  sharpeGt02 stats.sharpe && decide (0 < stats.mean_return) &&
    decide ((9 : ℚ) / 20 < stats.win_rate)

/-- One step of the good-cluster collection loop of `predict` (lines
86-100): a cluster id is kept iff it has an entry in
`self.cluster_performance` whose size is at least 5 and whose performance
passes `good_performance`. -/
def isGoodClusterEntry (perf : ℕ → Option ClusterStats) (c : ℕ) : Bool :=
  match perf c with
  | none => false
  | some stats => decide (5 ≤ stats.size) && goodPerformance stats

/-- `predictions[mask] = 1` on a 0/1 series. -/
def applyMask (preds : List ℕ) (mask : ℕ → Bool) : List ℕ :=
  (List.range preds.length).map fun i => if mask i then 1 else preds.getD i 0

/-- `predict(self)` (lines 73-113): raises `ValueError` when untrained;
otherwise starts from an all-zero series over the frame's index, collects
the good clusters (size ≥ 5, Sharpe > 0.2, positive mean return, win rate
> 0.45) in dict order, and for each sets 1 on the rows of the cluster that
also pass the RSI filter `30 < rsi < 70` and the volatility filter
`vol <= vol.mean() * 1.5`. -/
def UState.predict (s : UState) : Except String (List ℕ) :=
  match s.clusters with
  | none => .error "Model needs to be trained first"
  | some _ =>
      let n := s.data.nrows
      let good_clusters :=
        (List.range s.n_clusters).filter (isGoodClusterEntry s.cluster_performance)
      let clusterCol := s.data.col "cluster"
      let rsiCol := s.data.col "rsi"
      let volCol := s.data.col "vol"
      let mask : ℕ → ℕ → Bool := fun c i =>
        decide (clusterCol.getD i 0 = (c : ℚ)) &&
        (decide (30 < rsiCol.getD i 0) && decide (rsiCol.getD i 0 < 70)) &&
        decide (volCol.getD i 0 ≤ sampleMean volCol * (3 / 2))
      .ok (good_clusters.foldl (fun preds c => applyMask preds (mask c))
        (List.replicate n 0))

/-- `xs.cumsum()`. -/
def cumsum (xs : List ℚ) : List ℚ := (xs.scanl (· + ·) 0).tail

/-- The dictionary returned by `evaluate`. -/
structure EvalResult where
  cluster_performance : ℕ → Option ClusterStats
  cluster_sizes : List (ℕ × ℕ)
  mean_return : ℚ
  sharpe_ratio : MVal
  win_rate : ℚ
  max_drawdown : ℚ
  return_series : List ℚ
  cumulative_returns : List ℚ

/-- `evaluate(self)` (lines 115-150): raises `ValueError` when untrained;
otherwise reports the cluster statistics and the metrics of the series
`predictions * return_1d` over the whole window. -/
def UState.evaluate (s : UState) : Except String EvalResult :=
  match s.clusters with
  | none => .error "Model needs to be trained first"
  | some labels =>
      match s.predict with
      | .error e => .error e
      | .ok preds =>
          let strategy_returns :=
            List.zipWith (fun (p : ℕ) (r : ℚ) => (p : ℚ) * r) preds (s.data.col "return_1d")
          let cumulative_returns := cumsum strategy_returns
          let dd := List.zipWith (fun c m => c - m) cumulative_returns
            (runningMax cumulative_returns)
          .ok
            { cluster_performance := s.cluster_performance
              cluster_sizes := (List.range s.n_clusters).map fun i =>
                (i, (labels.filter fun l => decide (l = i)).length)
              mean_return := sampleMean strategy_returns
              sharpe_ratio :=
                if strategy_returns.length ≤ 1 then .nanv
                else if sampleVar strategy_returns = 0 then .fin 0
                else .sharpe (sampleMean strategy_returns)
                  (sampleVar strategy_returns) 1
              win_rate := ((strategy_returns.filter fun r => decide (0 < r)).length : ℚ) /
                (strategy_returns.length : ℚ)
              max_drawdown := dd.foldl min (dd.headD 0)
              return_series := strategy_returns
              cumulative_returns := cumulative_returns }

/-! ### Orchestration of `get_stock_prediction`
(`backend/app/routes/prediction.py` lines 113-255)

Data fetching, date arithmetic, charting and JSON shaping are external
collaborators; the embedded core starts from the prepared feature frame
(`features`), its integer day index (`idx`), the validated configuration,
and the sklearn labelling (`labels`). -/

/-- The typed failures of the embedded orchestration. -/
inductive PipeError where
  | insufficientData : PipeError
  | internalFailure : PipeError
deriving DecidableEq, Repr

/-- The parts of the response payload the claims are about. -/
structure PipeResult where
  predictions : List ℕ
  cluster_performance : ℕ → Option ClusterStats
  strategy_metrics : StrategyMetrics
  baseline_metrics : BaselineMetrics
  recent_metrics : StrategyMetrics

/-- The clustering orchestration of `get_stock_prediction` (lines 139-164):
one sufficiency check, then a single `train` on a fresh
`UnsupervisedStrategyAnalyzer`, one `predict`/`evaluate`, and the metric
computations.  There is no attempt loop, no post-training cluster-size
validation and no `NoValidClusteringError` anywhere in the source. -/
def get_stock_prediction_core (features : DF) (idx : List ℤ)
    (n_clusters min_cluster_size : ℕ) (labels : List ℕ) :
    Except PipeError PipeResult :=
  if features.nrows < max 20 (n_clusters * min_cluster_size) then
    .error .insufficientData
  else
    let strategy := (UState.init features n_clusters).train labels
    match strategy.predict, strategy.evaluate with
    | .ok predictions, .ok metrics =>
        let returns := features.col "return_1d"
        let strategy_metrics :=
          calculate_strategy_metrics idx (predictions.map fun (p : ℕ) => (p : ℚ)) returns
        let baseline_metrics := calculate_baseline_metrics returns
        let recent_metrics :=
          calculate_strategy_metrics (idx.drop (idx.length - 20))
            ((predictions.map fun (p : ℕ) => (p : ℚ)).drop (predictions.length - 20))
            (returns.drop (returns.length - 20))
        .ok
          { predictions := predictions
            cluster_performance := metrics.cluster_performance
            strategy_metrics := strategy_metrics
            baseline_metrics := baseline_metrics
            recent_metrics := recent_metrics }
    | _, _ => .error .internalFailure

/-! ### Real-number readings of the symbolic metric values -/

/-- `s > q` for a per-cluster Sharpe value, read over the reals the way the
float comparison behaves: false for NaN, and the exact real comparison for
`mean/std = m / sqrt v`. -/
def CSharpe.Gt (s : CSharpe) (q : ℚ) : Prop :=
  match s with
  | .nanv => False
  | .zero => (q : ℝ) < 0
  | .msv m v => (q : ℝ) < (m : ℝ) / Real.sqrt (v : ℝ)

/-- The real number a metric value denotes (strings and NaN denote
nothing). -/
def MVal.Denotes : MVal → ℝ → Prop
  | .str _, _ => False
  | .nanv, _ => False
  | .fin q, x => x = (q : ℝ)
  | .sharpe m v y, x => x = (m : ℝ) / Real.sqrt (v : ℝ) * Real.sqrt (y : ℝ)
  | .rpow b e, x => x = (b : ℝ) ^ (e : ℝ) - 1

/-! ### Concrete test inputs -/

/-- A 20-row constant feature frame used as a concrete test input. -/
def demoFrame : DF :=
  [("return_1d", List.replicate 20 (0 : ℚ)),
   ("vol", List.replicate 20 (0 : ℚ)),
   ("momentum_20d", List.replicate 20 (0 : ℚ)),
   ("rsi", List.replicate 20 (0 : ℚ)),
   ("bb_position", List.replicate 20 (0 : ℚ)),
   ("dollar_volume", List.replicate 20 (0 : ℚ)),
   ("relative_volume", List.replicate 20 (0 : ℚ)),
   ("garman_klass_vol", List.replicate 20 (0 : ℚ))]

/-- A labelling whose cluster 1 has exactly one member — below any
`min_cluster_size ≥ 2`. -/
def demoLabels : List ℕ := List.replicate 19 0 ++ [1]

/-- An integer day index for the demo frame. -/
def demoIdx : List ℤ := (List.range 20).map fun n => (n : ℤ)

/-! ## Helper lemmas -/

theorem lookup_append (name : String) (l1 l2 : List (String × List ℚ)) :
    List.lookup name (l1 ++ l2) = (List.lookup name l1).or (List.lookup name l2) := by
  induction l1 with
  | nil => simp [List.lookup]
  | cons hd tl ih =>
      obtain ⟨k, v⟩ := hd
      by_cases h : name = k
      · simp [List.lookup, h]
      · simp only [List.cons_append, List.lookup, beq_eq_false_iff_ne.mpr h]
        exact ih

theorem lookup_eq_none_of_not_mem {name : String} {l : List (String × List ℚ)}
    (h : name ∉ l.map Prod.fst) : List.lookup name l = none := by
  induction l with
  | nil => simp [List.lookup]
  | cons hd tl ih =>
      obtain ⟨k, v⟩ := hd
      simp only [List.map, List.mem_cons] at h
      push_neg at h
      simp [List.lookup, beq_eq_false_iff_ne.mpr h.1, ih h.2]

theorem lookup_isSome_of_mem {name : String} {l : List (String × List ℚ)}
    (h : name ∈ l.map Prod.fst) : (List.lookup name l).isSome := by
  induction l with
  | nil => simp at h
  | cons hd tl ih =>
      obtain ⟨k, v⟩ := hd
      by_cases hk : name = k
      · simp [List.lookup, hk]
      · simp only [List.map, List.mem_cons] at h
        rcases h with h | h
        · exact absurd h hk
        · simp [List.lookup, beq_eq_false_iff_ne.mpr hk, ih h]

/-! ## C10: predict/evaluate before train -/

/-- **C10.** On any analyzer state on which `train` has not set the
clusters — in particular a freshly constructed instance — both `predict`
and `evaluate` raise `ValueError("Model needs to be trained first")` and
return no signal series or metrics.  `predict` and `evaluate` read but
never write instance state in the source (the raise precedes any
assignment), which the embedding reflects by typing them as pure
functions of the state. -/
theorem untrained_predict_evaluate_raise (s : UState) (h : s.clusters = none)
    (df : DF) (k : ℕ) :
    s.predict = .error "Model needs to be trained first" ∧
    s.evaluate = .error "Model needs to be trained first" ∧
    (UState.init df k).clusters = none := by
  refine ⟨?_, ?_, rfl⟩
  · unfold UState.predict
    rw [h]
  · unfold UState.evaluate
    rw [h]

/-- Witness for C10 at a concrete untrained instance. -/
theorem untrained_predict_evaluate_raise_witness :
    (UState.init [("return_1d", [0, 1])] 3).predict =
      .error "Model needs to be trained first" ∧
    (UState.init [("return_1d", [0, 1])] 3).evaluate =
      .error "Model needs to be trained first" :=
  ⟨(untrained_predict_evaluate_raise _ rfl [] 2).1,
   (untrained_predict_evaluate_raise _ rfl [] 2).2.1⟩

/-! ## C9: train mutates the stored frame by exactly one column -/

/-- **C9.** `__init__` stores the caller-supplied frame as passed (the
source keeps a reference, not a copy), and `train` adds exactly the one
column `cluster` to it: provided the frame had no `cluster` column, the
column list afterwards is the old list plus `cluster` at the end, and every
pre-existing column still holds exactly its old values. -/
theorem train_adds_exactly_cluster_column (df : DF) (k : ℕ) (labels : List ℕ)
    (h : "cluster" ∉ df.keys) :
    (UState.init df k).data = df ∧
    ((UState.init df k).train labels).data.keys = df.keys ++ ["cluster"] ∧
    ∀ name, name ∈ df.keys →
      ((UState.init df k).train labels).data.colOpt name = df.colOpt name := by
  refine ⟨rfl, ?_, ?_⟩
  · show (DF.insertCol df "cluster" _).keys = _
    unfold DF.insertCol
    rw [if_neg h]
    simp [DF.keys]
  · intro name hname
    show (DF.insertCol df "cluster" _).colOpt name = _
    unfold DF.insertCol
    rw [if_neg h]
    unfold DF.colOpt
    rw [lookup_append]
    obtain ⟨v, hv⟩ := Option.isSome_iff_exists.mp (lookup_isSome_of_mem hname)
    rw [hv]
    rfl

/-- Witness for C9 at a concrete two-column frame. -/
theorem train_adds_exactly_cluster_column_witness :
    ((UState.init [("return_1d", [0, 1]), ("vol", [2, 3])] 2).train [0, 1]).data.keys =
      ["return_1d", "vol", "cluster"] ∧
    ((UState.init [("return_1d", [0, 1]), ("vol", [2, 3])] 2).train [0, 1]).data.colOpt
        "vol" = some [2, 3] := by
  have h := train_adds_exactly_cluster_column
    [("return_1d", [0, 1]), ("vol", [2, 3])] 2 [0, 1] (by decide)
  exact ⟨h.2.1, (h.2.2 "vol" (by decide)).trans rfl⟩

/-! ## C3: the zero-trade path of `calculate_strategy_metrics` -/

/-- Counterexample to C3 as stated: with no traded day the source returns
the Python string `"None"` — not a sentinel zero/neutral *number* — for
`sharpe_ratio` (and the other three ratios). -/
theorem zero_trade_sentinel_counterexample :
    (calculate_strategy_metrics [0, 1, 2] [0, 0, 0]
        [1/100, -1/100, 2/100]).sharpe_ratio = MVal.str "None" ∧
    ((calculate_strategy_metrics [0, 1, 2] [0, 0, 0]
        [1/100, -1/100, 2/100]).sharpe_ratio).isNumeric = false := by
  constructor <;> rfl

/-- **C3 (amended).** For every predictions/returns pair with no day of
signal 1, `calculate_strategy_metrics` returns `total_trades = 0`,
`winning_trades = 0`, the status string
`"HOLD - No trading signals produced in the last 20 trading days"`, and the
string `"None"` (not NaN, but a string rather than a number) for
`sharpe_ratio`, `annual_return`, `win_rate` and `max_drawdown`. -/
theorem zero_trade_returns_hold_sentinels (idx : List ℤ) (preds rets : List ℚ)
    (h : ∀ p ∈ preds, p ≠ 1) :
    calculate_strategy_metrics idx preds rets =
      { sharpe_ratio := .str "None"
        annual_return := .str "None"
        win_rate := .str "None"
        max_drawdown := .str "None"
        total_trades := 0
        winning_trades := 0
        strategy_status :=
          some "HOLD - No trading signals produced in the last 20 trading days" } := by
  have ht : tradedReturns preds rets = [] := by
    unfold tradedReturns
    rw [List.filter_eq_nil_iff.mpr, List.map_nil]
    intro p hp
    simp only [decide_eq_true_eq]
    exact h p.1 (List.of_mem_zip hp).1
  unfold calculate_strategy_metrics
  rw [ht]
  rfl

/-- Witness for C3 at a concrete all-zero signal series. -/
theorem zero_trade_returns_hold_sentinels_witness :
    calculate_strategy_metrics [7, 8] [0, 0] [1/10, -1/10] =
      { sharpe_ratio := .str "None"
        annual_return := .str "None"
        win_rate := .str "None"
        max_drawdown := .str "None"
        total_trades := 0
        winning_trades := 0
        strategy_status :=
          some "HOLD - No trading signals produced in the last 20 trading days" } :=
  zero_trade_returns_hold_sentinels [7, 8] [0, 0] [1/10, -1/10] (by decide)

/-! ## C7: `calculate_baseline_metrics` -/

/-- Counterexample to C7 as stated: a series with a single positive
observation has `accuracy = 1`, not `0` — only the zero-length case returns
all zeros. -/
theorem baseline_singleton_counterexample :
    (calculate_baseline_metrics [1/10]).accuracy = 1 ∧ (1 : ℚ) ≠ 0 := by
  constructor
  · with_unfolding_all rfl
  · with_unfolding_all decide

/-- **C7 (amended).** `calculate_baseline_metrics`: with 0 observations,
accuracy, Sharpe and annual return are all 0; with exactly 1 observation,
Sharpe and annual return are 0 but accuracy is the fraction of positive
days (0 or 1); with at least 2 observations, accuracy is the fraction of
positive days, Sharpe denotes `(mean/std) * sqrt 252` (0 if the standard
deviation is 0), and the annual return is `(1 + mean_daily)^252 - 1`
whenever `mean_daily > -1` (the source clamps it to `-1` otherwise, a case
unreachable for returns of positive prices). -/
theorem baseline_metrics_by_length (rets : List ℚ) :
    (rets.length = 0 → calculate_baseline_metrics rets =
      { accuracy := 0, sharpe_ratio := .fin 0, annual_return := 0 }) ∧
    (rets.length = 1 → calculate_baseline_metrics rets =
      { accuracy := ((rets.filter fun r => decide (0 < r)).length : ℚ) / (rets.length : ℚ)
        sharpe_ratio := .fin 0
        annual_return := 0 }) ∧
    (2 ≤ rets.length →
      (calculate_baseline_metrics rets).accuracy =
        ((rets.filter fun r => decide (0 < r)).length : ℚ) / (rets.length : ℚ) ∧
      (sampleVar rets = 0 → (calculate_baseline_metrics rets).sharpe_ratio = .fin 0) ∧
      (sampleVar rets ≠ 0 →
        (calculate_baseline_metrics rets).sharpe_ratio.Denotes
          ((sampleMean rets : ℝ) / Real.sqrt (sampleVar rets) * Real.sqrt 252)) ∧
      (-1 < sampleMean rets →
        (calculate_baseline_metrics rets).annual_return =
          (1 + sampleMean rets) ^ (252 : ℕ) - 1) ∧
      (sampleMean rets ≤ -1 → (calculate_baseline_metrics rets).annual_return = -1)) := by
  refine ⟨?_, ?_, ?_⟩
  · intro h
    rw [List.length_eq_zero] at h
    subst h
    rfl
  · intro h
    unfold calculate_baseline_metrics
    rw [if_neg (by omega), if_neg (by omega)]
  · intro h
    unfold calculate_baseline_metrics
    rw [if_neg (by omega), if_pos (by omega)]
    refine ⟨rfl, fun hv => by simp [hv], fun hv => ?_, fun hm => ?_, fun hm => ?_⟩
    · simp [hv, MVal.Denotes]
    · simp [hm]
    · simp [show ¬(-1 < sampleMean rets) from not_lt.mpr hm]

/-- Witness for C7 at a concrete two-observation series. -/
theorem baseline_metrics_by_length_witness :
    (calculate_baseline_metrics [1/10, 1/5]).accuracy =
      ((([1/10, 1/5] : List ℚ).filter fun r => decide (0 < r)).length : ℚ) /
        (([1/10, 1/5] : List ℚ).length : ℚ) :=
  ((baseline_metrics_by_length [1/10, 1/5]).2.2 (by decide)).1

/-! ## C6: strategy metrics restricted to traded days, frequency-adjusted Sharpe -/

theorem tradedReturns_eq_filterMap (preds rets : List ℚ)
    (h : preds.length = rets.length) :
    tradedReturns preds rets =
      (List.range rets.length).filterMap fun i =>
        if preds.getD i 0 = 1 then some (rets.getD i 0) else none := by
  induction preds generalizing rets with
  | nil =>
      cases rets with
      | nil => rfl
      | cons r rs => simp at h
  | cons p ps ih =>
      cases rets with
      | nil => simp at h
      | cons r rs =>
          have h' : ps.length = rs.length := by simpa using h
          unfold tradedReturns
          simp only [List.zip_cons_cons, List.filter_cons, List.length_cons,
            List.range_succ_eq_map, List.filterMap_cons, List.filterMap_map]
          have hcomp :
              ((fun i =>
                  if (p :: ps).getD i 0 = 1 then some ((r :: rs).getD i 0) else none) ∘
                fun i => i + 1) =
              fun i => if ps.getD i 0 = 1 then some (rs.getD i 0) else none := rfl
          rw [hcomp, ← ih rs h']
          by_cases hp : p = 1
          · simp [hp, tradedReturns]
          · simp [hp, tradedReturns]

/-- Counterexample to C6 as stated: with zero traded days (`total_trades =
0 ≤ 1`) the Sharpe field is not `0` but the zero-trade sentinel string
`"None"`. -/
theorem strategy_sharpe_zero_trades_counterexample :
    (calculate_strategy_metrics [3, 4] [0, 0] [1/10, 1/5]).sharpe_ratio =
      MVal.str "None" ∧
    MVal.str "None" ≠ MVal.fin 0 := by
  constructor
  · with_unfolding_all rfl
  · decide

/-- **C6 (amended).** The strategy metrics are computed only over the days
with signal 1 (the traded returns are exactly the returns at the positions
where the prediction equals 1); the Sharpe field denotes
`(mean/std of traded returns) * sqrt(252 * trades/total_days)` whenever
`trades > 1` and the traded standard deviation is nonzero; it is `0` when
`trades = 1`, or when `trades > 1` and the standard deviation is zero; at
`trades = 0` the zero-trade sentinel path returns the string `"None"`
instead (cf. C3). -/
theorem strategy_metrics_traded_days_sharpe (idx : List ℤ) (preds rets : List ℚ)
    (h : preds.length = rets.length) :
    tradedReturns preds rets =
      ((List.range rets.length).filterMap fun i =>
        if preds.getD i 0 = 1 then some (rets.getD i 0) else none) ∧
    (calculate_strategy_metrics idx preds rets).total_trades =
      (tradedReturns preds rets).length ∧
    ((tradedReturns preds rets).length = 0 →
      (calculate_strategy_metrics idx preds rets).sharpe_ratio = .str "None") ∧
    ((tradedReturns preds rets).length = 1 ∨
        (1 < (tradedReturns preds rets).length ∧
          sampleVar (tradedReturns preds rets) = 0) →
      (calculate_strategy_metrics idx preds rets).sharpe_ratio = .fin 0) ∧
    (1 < (tradedReturns preds rets).length →
      sampleVar (tradedReturns preds rets) ≠ 0 →
      (calculate_strategy_metrics idx preds rets).sharpe_ratio.Denotes
        ((sampleMean (tradedReturns preds rets) : ℝ) /
            Real.sqrt (sampleVar (tradedReturns preds rets)) *
          Real.sqrt (252 * ((tradedReturns preds rets).length : ℝ) /
            (rets.length : ℝ)))) := by
  refine ⟨tradedReturns_eq_filterMap preds rets h, ?_, ?_, ?_, ?_⟩
  · by_cases h0 : (tradedReturns preds rets).length = 0
    · simp [calculate_strategy_metrics, h0]
    · simp [calculate_strategy_metrics, h0]
  · intro h0
    simp [calculate_strategy_metrics, h0]
  · rintro (h1 | ⟨h1, hv⟩)
    · simp [calculate_strategy_metrics, h1]
    · simp [calculate_strategy_metrics, show (tradedReturns preds rets).length ≠ 0 by
        omega, h1, hv]
  · intro h1 hv
    have hne : ¬(tradedReturns preds rets).length = 0 := by omega
    simp only [calculate_strategy_metrics, if_neg hne, if_pos h1, if_pos hv,
      MVal.Denotes]
    norm_cast
    push_cast
    ring

/-- Witness for C6 at a concrete two-trade input with nonzero variance. -/
theorem strategy_metrics_traded_days_sharpe_witness :
    (calculate_strategy_metrics [0, 1, 2] [1, 1, 0]
        [1/10, 1/5, 1/2]).sharpe_ratio.Denotes
      ((sampleMean (tradedReturns [1, 1, 0] [1/10, 1/5, 1/2]) : ℝ) /
          Real.sqrt (sampleVar (tradedReturns [1, 1, 0] [1/10, 1/5, 1/2])) *
        Real.sqrt (252 * ((tradedReturns [1, 1, 0] [1/10, 1/5, 1/2]).length : ℝ) /
          (([1/10, 1/5, 1/2] : List ℚ).length : ℝ))) :=
  (strategy_metrics_traded_days_sharpe [0, 1, 2] [1, 1, 0] [1/10, 1/5, 1/2]
      (by decide)).2.2.2.2 (by with_unfolding_all decide)
    (by with_unfolding_all decide)

/-! ## C8: relative volume sentinel -/

theorem rollingMeanAt_nan_or_fin (xs : List PF) (w i : ℕ) :
    rollingMeanAt xs w i = PF.nan ∨ ∃ q, rollingMeanAt xs w i = PF.fin q := by
  by_cases h1 : i + 1 < w
  · exact Or.inl (by simp [rollingMeanAt, h1])
  · by_cases h2 : ((xs.take (i + 1)).drop (i + 1 - w)).all PF.isFin
    · refine Or.inr ⟨((((xs.take (i + 1)).drop (i + 1 - w)).map PF.toQ).sum / (w : ℚ)), ?_⟩
      simp [rollingMeanAt, h1, h2]
    · exact Or.inl (by simp [rollingMeanAt, h1, h2])

/-- Counterexample to C8 as stated: the legacy root-module
`calculate_relative_volume` (`data_analyzer.py` lines 192-203) performs no
sentinel substitution — on an all-zero volume series the rolling mean is
zero and the NaN ratio propagates to the output instead of `0.0001`. -/
theorem relative_volume_legacy_counterexample :
    (calculate_relative_volume_legacy (List.replicate 20 0) 20)[19]? =
      some PF.nan ∧
    PF.nan ≠ PF.fin (1/10000) := by
  constructor
  · with_unfolding_all rfl
  · with_unfolding_all decide

/-- **C8 (amended).** The backend `calculate_relative_volume` returns
`volume / rolling_mean(volume, window)` wherever the rolling mean is a
nonzero (finite) value, returns the floor sentinel `0.0001` wherever the
rolling mean is zero or the ratio is undefined, and never lets a NaN or
infinity reach the output; the legacy root-module duplicate instead
returns the raw ratio with NaN propagating (see the counterexample). -/
theorem relative_volume_sentinel (volume : List ℚ) (w i : ℕ)
    (hi : i < volume.length) :
    (∀ m : ℚ, rollingMeanAt (volume.map PF.fin) w i = PF.fin m → m ≠ 0 →
      (calculate_relative_volume volume w)[i]? =
        some (PF.fin (volume.getD i 0 / m))) ∧
    (rollingMeanAt (volume.map PF.fin) w i = PF.fin 0 ∨
        rollingMeanAt (volume.map PF.fin) w i = PF.nan →
      (calculate_relative_volume volume w)[i]? = some (PF.fin (1/10000))) ∧
    (∃ q : ℚ, (calculate_relative_volume volume w)[i]? = some (PF.fin q)) := by
  have hbase : ∀ x, rollingMeanAt (volume.map PF.fin) w i = x →
      (calculate_relative_volume volume w)[i]? = some (
        match PF.div (PF.fin (volume.getD i 0))
            (if x = PF.fin 0 then PF.nan else x) with
        | PF.inf => PF.fin (1/10000)
        | PF.ninf => PF.fin (1/10000)
        | PF.nan => PF.fin (1/10000)
        | PF.fin q => PF.fin q) := by
    intro x hx
    unfold calculate_relative_volume
    rw [List.getElem?_map]
    simp only [List.getElem?_range, hi, if_pos, Option.map_some']
    rw [hx]
  refine ⟨?_, ?_, ?_⟩
  · intro m hm hm0
    have := hbase (PF.fin m) hm
    rw [this]
    have hne : PF.fin m ≠ PF.fin 0 := by
      intro hc
      exact hm0 (by injection hc)
    simp only [if_neg hne]
    simp [PF.div, hm0]
  · rintro (hm | hm) <;> rw [hbase _ hm] <;> simp [PF.div]
  · rcases rollingMeanAt_nan_or_fin (volume.map PF.fin) w i with hm | ⟨q, hm⟩
    · exact ⟨1/10000, by rw [hbase _ hm]; simp [PF.div]⟩
    · by_cases hq : q = 0
      · subst hq
        exact ⟨1/10000, by rw [hbase _ hm]; simp [PF.div]⟩
      · refine ⟨volume.getD i 0 / q, ?_⟩
        rw [hbase _ hm]
        have hne : PF.fin q ≠ PF.fin 0 := by
          intro hc
          exact hq (by injection hc)
        simp only [if_neg hne]
        simp [PF.div, hq]

/-- Witness for C8 at a concrete volume series with a nonzero rolling
mean. -/
theorem relative_volume_sentinel_witness :
    (calculate_relative_volume [1, 2] 1)[0]? =
      some (PF.fin (([(1 : ℚ), 2].getD 0 0) / 1)) :=
  (relative_volume_sentinel [1, 2] 1 0 (by decide)).1 1
    (by with_unfolding_all rfl) (by decide)

/-! ## C5: RSI is bounded and hits 100 exactly at zero average loss -/

theorem mem_zipWith_fin (l1 l2 : List ℚ) :
    ∀ x ∈ List.zipWith (fun b a => PF.fin (b - a)) l1 l2, ∃ q : ℚ, x = PF.fin q := by
  induction l1 generalizing l2 with
  | nil => intro x hx; simp at hx
  | cons b bs ih =>
      intro x hx
      cases l2 with
      | nil => simp at hx
      | cons a as =>
          simp only [List.zipWith_cons_cons, List.mem_cons] at hx
          rcases hx with h | h
          · exact ⟨b - a, h⟩
          · exact ih as x h

theorem mem_diffSeries (closes : List ℚ) :
    ∀ x ∈ diffSeries closes, x = PF.nan ∨ ∃ q : ℚ, x = PF.fin q := by
  intro x hx
  cases closes with
  | nil => simp [diffSeries] at hx
  | cons c rest =>
      simp only [diffSeries, List.mem_cons] at hx
      rcases hx with h | h
      · exact Or.inl h
      · exact Or.inr (mem_zipWith_fin rest (c :: rest) x h)

theorem mem_rsiGains_NN (closes : List ℚ) : ∀ x ∈ rsiGains closes, PF.NN x := by
  intro x hx
  obtain ⟨y, hy, hxy⟩ := List.mem_map.mp hx
  subst hxy
  rcases mem_diffSeries closes y hy with h | ⟨q, h⟩ <;> subst h
  · exact Or.inl rfl
  · unfold clipGain
    by_cases hq : q < 0
    · exact Or.inr ⟨0, le_refl 0, by simp [hq]⟩
    · exact Or.inr ⟨q, not_lt.mp hq, by simp [hq]⟩

theorem mem_rsiLosses_NN (closes : List ℚ) : ∀ x ∈ rsiLosses closes, PF.NN x := by
  intro x hx
  obtain ⟨y, hy, hxy⟩ := List.mem_map.mp hx
  subst hxy
  rcases mem_diffSeries closes y hy with h | ⟨q, h⟩ <;> subst h
  · exact Or.inl rfl
  · unfold clipLoss
    by_cases hq : 0 < q
    · exact Or.inr ⟨0, le_refl 0, by simp [hq]⟩
    · exact Or.inr ⟨-q, by linarith [not_lt.mp hq], by simp [hq]⟩

theorem rollingMeanAt_NN (xs : List PF) (hxs : ∀ x ∈ xs, PF.NN x) (w i : ℕ) :
    PF.NN (rollingMeanAt xs w i) := by
  by_cases h1 : i + 1 < w
  · exact Or.inl (by simp [rollingMeanAt, h1])
  · by_cases h2 : ((xs.take (i + 1)).drop (i + 1 - w)).all PF.isFin
    · refine Or.inr ⟨((((xs.take (i + 1)).drop (i + 1 - w)).map PF.toQ).sum / (w : ℚ)),
        ?_, ?_⟩
      · apply div_nonneg _ (by positivity)
        apply List.sum_nonneg
        intro q hq
        obtain ⟨x, hx, hxq⟩ := List.mem_map.mp hq
        have hxin : x ∈ xs := List.mem_of_mem_take (List.mem_of_mem_drop hx)
        have hfin : x.isFin := by
          rw [List.all_eq_true] at h2
          exact h2 x hx
        rcases hxs x hxin with hnan | ⟨a, ha, hfa⟩
        · subst hnan
          simp [PF.isFin] at hfin
        · subst hfa
          simp only [PF.toQ] at hxq
          exact hxq ▸ ha
      · simp [rollingMeanAt, h1, h2]
    · exact Or.inl (by simp [rollingMeanAt, h1, h2])

theorem rsiFromRS_props (g l : PF) (hg : PF.NN g) (hl : PF.NN l) :
    (∀ q, rsiFromRS (PF.div g l) = PF.fin q → 0 ≤ q ∧ q ≤ 100) ∧
    (rsiFromRS (PF.div g l) = PF.fin 100 ↔
      l = PF.fin 0 ∧ ∃ a : ℚ, 0 < a ∧ g = PF.fin a) := by
  rcases hg with hg | ⟨a, ha, hg⟩ <;> subst hg
  · -- avg gain is NaN: everything is NaN
    rcases hl with hl | ⟨b, hb, hl⟩ <;> subst hl <;>
      constructor <;>
        simp [rsiFromRS, PF.div, PF.add, PF.sub]
  · rcases hl with hl | ⟨b, hb, hl⟩ <;> subst hl
    · -- avg loss is NaN: everything is NaN
      constructor <;> simp [rsiFromRS, PF.div, PF.add, PF.sub]
    · by_cases hb0 : b = 0
      · subst hb0
        by_cases ha0 : a = 0
        · -- 0/0: RS is NaN, RSI is NaN
          subst ha0
          constructor <;> simp [rsiFromRS, PF.div, PF.add, PF.sub]
        · -- positive gain over zero loss: RS = inf, RSI = 100
          have hapos : 0 < a := lt_of_le_of_ne ha (Ne.symm ha0)
          constructor
          · intro q hq
            simp [rsiFromRS, PF.div, PF.add, PF.sub, ha0, hapos] at hq
            simp [← hq]
          · simp [rsiFromRS, PF.div, PF.add, PF.sub, ha0, hapos]
      · -- positive loss: RS finite, RSI in [0, 100)
        have hbpos : 0 < b := lt_of_le_of_ne hb (Ne.symm hb0)
        have hx : 0 ≤ a / b := div_nonneg ha hb
        have h1x : (0 : ℚ) < 1 + a / b := by linarith
        have h1x' : (1 : ℚ) + a / b ≠ 0 := ne_of_gt h1x
        have hfrac_pos : 0 < 100 / (1 + a / b) := by positivity
        have hfrac_le : 100 / (1 + a / b) ≤ 100 := by
          rw [div_le_iff₀ h1x]
          nlinarith
        constructor
        · intro q hq
          simp [rsiFromRS, PF.div, PF.add, PF.sub, hb0, h1x'] at hq
          constructor <;> linarith
        · constructor
          · intro hq
            simp [rsiFromRS, PF.div, PF.add, PF.sub, hb0, h1x'] at hq
          · rintro ⟨hc, -⟩
            exact absurd (by injection hc) hb0

/-- **C5.** For every close series and window, wherever the RSI of
`calculate_rsi` is defined (a finite value) it lies in `[0, 100]`, and it
equals exactly `100` precisely when the rolling average loss is `0` and the
rolling average gain is positive — in that case the value is the finite
number `100`, no NaN or infinity reaching the output. -/
theorem rsi_bounded_and_100_iff (closes : List ℚ) (w i : ℕ)
    (hi : i < closes.length) :
    (∀ q, (calculate_rsi closes w)[i]? = some (PF.fin q) → 0 ≤ q ∧ q ≤ 100) ∧
    ((calculate_rsi closes w)[i]? = some (PF.fin 100) ↔
      rollingMeanAt (rsiLosses closes) w i = PF.fin 0 ∧
      ∃ a : ℚ, 0 < a ∧ rollingMeanAt (rsiGains closes) w i = PF.fin a) := by
  have hform : (calculate_rsi closes w)[i]? =
      some (rsiFromRS (PF.div (rollingMeanAt (rsiGains closes) w i)
        (rollingMeanAt (rsiLosses closes) w i))) := by
    unfold calculate_rsi avgGains avgLosses
    rw [List.zipWith_map, List.zipWith_same, List.map_map, List.getElem?_map]
    simp [List.getElem?_range, hi]
  have hp := rsiFromRS_props _ _ (rollingMeanAt_NN _ (mem_rsiGains_NN closes) w i)
    (rollingMeanAt_NN _ (mem_rsiLosses_NN closes) w i)
  rw [hform]
  constructor
  · intro q hq
    exact hp.1 q (by injection hq)
  · rw [Option.some_inj]
    exact hp.2

/-- Witness for C5: a strictly increasing close series has zero average
loss and positive average gain after the warm-up, so RSI is exactly 100. -/
theorem rsi_bounded_and_100_iff_witness :
    (calculate_rsi [1, 2, 3, 4, 5, 6, 7, 8, 9, 10, 11, 12, 13, 14, 15] 14)[14]? =
      some (PF.fin 100) :=
  (rsi_bounded_and_100_iff [1, 2, 3, 4, 5, 6, 7, 8, 9, 10, 11, 12, 13, 14, 15]
      14 14 (by decide)).2.mpr
    ⟨by with_unfolding_all rfl, 1, by decide, by with_unfolding_all rfl⟩

/-! ## C4: missing-value policy of the feature builder -/

theorem ffillAux_of_allSome {α : Type} (c : Option α) (xs : List (Option α))
    (h : ∀ x ∈ xs, x.isSome) : ffillAux c xs = xs := by
  induction xs generalizing c with
  | nil => rfl
  | cons x rest ih =>
      cases x with
      | none => exact absurd (h none (List.mem_cons_self _ _)) (by simp)
      | some a =>
          unfold ffillAux
          rw [ih (some a) fun y hy => h y (List.mem_cons_of_mem _ hy)]

theorem fillna_allSome {α : Type} (d : α) (xs : List (Option α)) :
    ∀ x ∈ fillna d xs, x.isSome := by
  intro x hx
  obtain ⟨y, -, hxy⟩ := List.mem_map.mp hx
  subst hxy
  rfl

theorem ffill_fillna {α : Type} (d : α) (xs : List (Option α)) :
    ffill (fillna d xs) = fillna d xs :=
  ffillAux_of_allSome none _ (fillna_allSome d xs)

theorem bfill_fillna {α : Type} (d : α) (xs : List (Option α)) :
    bfill (fillna d xs) = fillna d xs := by
  unfold bfill ffill
  rw [ffillAux_of_allSome none _ fun x hx =>
    fillna_allSome d xs x (List.mem_reverse.mp hx), List.reverse_reverse]

theorem ffillAux_idem {α : Type} (c : Option α) (xs : List (Option α)) :
    ffillAux c (ffillAux c xs) = ffillAux c xs := by
  induction xs generalizing c with
  | nil => rfl
  | cons x rest ih =>
      cases x with
      | none =>
          cases c with
          | none => simp only [ffillAux]; rw [ih none]
          | some a => simp only [ffillAux]; rw [ih (some a)]
      | some a => simp only [ffillAux]; rw [ih (some a)]

theorem ffill_idem {α : Type} (xs : List (Option α)) : ffill (ffill xs) = ffill xs :=
  ffillAux_idem none xs

theorem map_constSome_allSome {α : Type} (d : α) (xs : List (Option α)) :
    ∀ x ∈ xs.map fun _ => some d, x.isSome := by
  intro x hx
  obtain ⟨y, -, hxy⟩ := List.mem_map.mp hx
  subst hxy
  rfl

theorem ffill_map_constSome {α : Type} (d : α) (xs : List (Option α)) :
    ffill (xs.map fun _ => some d) = xs.map fun _ => some d :=
  ffillAux_of_allSome none _ (map_constSome_allSome d xs)

theorem bfill_map_constSome {α : Type} (d : α) (xs : List (Option α)) :
    bfill (xs.map fun _ => some d) = xs.map fun _ => some d := by
  unfold bfill ffill
  rw [ffillAux_of_allSome none _ fun x hx =>
    map_constSome_allSome d xs x (List.mem_reverse.mp hx), List.reverse_reverse]

/-- Counterexample to C4 as stated: on the RSI column computed from the
close series `[10, 12, 11, 11, ...]` (defined at day 14, undefined again
from day 16 on), the source's policy (scalar default 50 first, directional
fills afterwards) and the claimed policy (forward-fill, backward-fill, then
default 50) produce different columns — the source yields 50 where the
claimed policy carries the last defined RSI forward. -/
theorem feature_fill_order_counterexample :
    resolveField FeatureField.rsi
      (pfToOpt (calculate_rsi
        [10, 12, 11, 11, 11, 11, 11, 11, 11, 11, 11, 11, 11, 11, 11, 11, 11, 11] 14)) ≠
    resolveFieldSpec FeatureField.rsi
      (pfToOpt (calculate_rsi
        [10, 12, 11, 11, 11, 11, 11, 11, 11, 11, 11, 11, 11, 11, 11, 11, 11, 11] 14)) := by
  with_unfolding_all decide

/-- **C4 (amended).** The backend feature builder resolves missing values
per field in the opposite order to the one claimed: the scalar neutral
defaults are applied at assembly time — `return_1d → 0`, `rsi → 50`,
`bb_position → 0.5`, `relative_volume → 1`, leaving those four fields
gap-free before any directional fill — and the trailing frame-wide
forward-fill/backward-fill pass only affects the remaining fields `vol`,
`dollar_volume` and `garman_klass_vol`, which receive a forward fill then
a backward fill and no scalar default at all.  `momentum_20d` is not
filled but overwritten: the guard `'20d' in momentum_dict` never matches
the actual keys `momentum_5d` … `momentum_50d`, so the whole column is
set to the constant 0 and every computed momentum value is discarded.
(The legacy root-module `prepare_features_for_clustering` applies no fill
whatsoever, only a final `dropna`.) -/
theorem feature_fill_policy (col : List (Option ℚ)) :
    resolveField FeatureField.return_1d col = fillna 0 col ∧
    resolveField FeatureField.momentum_20d col = (col.map fun _ => some 0) ∧
    resolveField FeatureField.rsi col = fillna 50 col ∧
    resolveField FeatureField.bb_position col = fillna (1/2) col ∧
    resolveField FeatureField.relative_volume col = fillna 1 col ∧
    resolveField FeatureField.vol col = bfill (ffill col) ∧
    resolveField FeatureField.dollar_volume col = bfill (ffill col) ∧
    resolveField FeatureField.garman_klass_vol col = bfill (ffill col) := by
  refine ⟨?_, ?_, ?_, ?_, ?_, ?_, ?_, ?_⟩ <;>
    unfold resolveField <;>
    simp only [ffill_fillna, bfill_fillna, ffill_idem,
      ffill_map_constSome, bfill_map_constSome]

/-! ## C2: signal characterization of `predict` -/

theorem applyMask_length (preds : List ℕ) (mask : ℕ → Bool) :
    (applyMask preds mask).length = preds.length := by
  simp [applyMask]

theorem applyMask_getD (preds : List ℕ) (mask : ℕ → Bool) (i : ℕ)
    (hi : i < preds.length) :
    (applyMask preds mask).getD i 0 = if mask i then 1 else preds.getD i 0 := by
  unfold applyMask
  rw [List.getD_eq_getElem?_getD, List.getElem?_map]
  simp [List.getElem?_range, hi, List.getD_eq_getElem?_getD]

theorem foldl_applyMask_length (cs : List ℕ) (start : List ℕ)
    (mask : ℕ → ℕ → Bool) :
    (cs.foldl (fun preds c => applyMask preds (mask c)) start).length =
      start.length := by
  induction cs generalizing start with
  | nil => rfl
  | cons c rest ih => rw [List.foldl_cons, ih, applyMask_length]

theorem foldl_applyMask_getD (cs : List ℕ) (start : List ℕ)
    (mask : ℕ → ℕ → Bool) (i : ℕ) (hi : i < start.length) :
    (cs.foldl (fun preds c => applyMask preds (mask c)) start).getD i 0 =
      if cs.any (fun c => mask c i) then 1 else start.getD i 0 := by
  induction cs generalizing start with
  | nil => simp
  | cons c rest ih =>
      rw [List.foldl_cons, ih (applyMask start (mask c))
        (by rw [applyMask_length]; exact hi), applyMask_getD start (mask c) i hi]
      by_cases h1 : mask c i <;> by_cases h2 : rest.any (fun x => mask x i) <;>
        simp [h1, h2]

theorem col_insertCol_self (df : DF) (vals : List ℚ) (h : "cluster" ∉ df.keys) :
    (df.insertCol "cluster" vals).col "cluster" = vals := by
  unfold DF.insertCol
  rw [if_neg h]
  unfold DF.col DF.colOpt
  rw [lookup_append, lookup_eq_none_of_not_mem h]
  rfl

theorem col_insertCol_other (df : DF) (vals : List ℚ) (name : String)
    (hne : name ≠ "cluster") (h : "cluster" ∉ df.keys) :
    (df.insertCol "cluster" vals).col name = df.col name := by
  unfold DF.insertCol
  rw [if_neg h]
  unfold DF.col DF.colOpt
  rw [lookup_append]
  cases hl : List.lookup name df with
  | some v => rfl
  | none => simp [List.lookup, beq_eq_false_iff_ne.mpr hne]

theorem nrows_insertCol (df : DF) (labels : List ℕ) (h : "cluster" ∉ df.keys)
    (hlen : labels.length = df.nrows) :
    (df.insertCol "cluster" (labels.map fun (l : ℕ) => (l : ℚ))).nrows =
      df.nrows := by
  unfold DF.insertCol
  rw [if_neg h]
  cases df with
  | nil =>
      have h0 : labels.length = 0 := hlen
      rw [List.length_eq_zero.mp h0]
      rfl
  | cons p rest => rfl

theorem sampleVar_nonneg (xs : List ℚ) (h : 2 ≤ xs.length) : 0 ≤ sampleVar xs := by
  unfold sampleVar
  apply div_nonneg
  · apply List.sum_nonneg
    intro q hq
    obtain ⟨x, -, hxq⟩ := List.mem_map.mp hq
    exact hxq ▸ sq_nonneg _
  · have : (2 : ℚ) ≤ (xs.length : ℚ) := by exact_mod_cast h
    linarith

theorem train_cluster_performance (df : DF) (k : ℕ) (labels : List ℕ) (c : ℕ) :
    ((UState.init df k).train labels).cluster_performance c =
      if c < k ∧ 0 < (clusterReturnsOf df labels c).length then
        some (mkStats (clusterReturnsOf df labels c))
      else none := rfl

theorem msv_gt_fifth_iff (m v : ℚ) (hv : 0 < v) :
    ((decide (0 < m) && decide (v < 25 * m ^ 2)) = true) ↔
      (((1:ℚ)/5 : ℚ) : ℝ) < (m : ℝ) / Real.sqrt (v : ℝ) := by
  rw [Bool.and_eq_true, decide_eq_true_eq, decide_eq_true_eq]
  have hv' : (0 : ℝ) < (v : ℝ) := by exact_mod_cast hv
  have hsq : 0 < Real.sqrt (v : ℝ) := Real.sqrt_pos.mpr hv'
  constructor
  · rintro ⟨hm, hlt⟩
    have hm' : (0 : ℝ) < (m : ℝ) := by exact_mod_cast hm
    have h5 : Real.sqrt (v : ℝ) < 5 * (m : ℝ) := by
      apply (Real.sqrt_lt' (by positivity)).mpr
      have : (v : ℝ) < 25 * (m : ℝ) ^ 2 := by exact_mod_cast hlt
      nlinarith
    rw [lt_div_iff₀ hsq]
    push_cast
    linarith
  · intro hlt
    rw [lt_div_iff₀ hsq] at hlt
    push_cast at hlt
    have hm' : (0 : ℝ) < (m : ℝ) := by
      have h0 : (0 : ℝ) ≤ 1 / 5 * Real.sqrt (v : ℝ) := by positivity
      linarith
    have h5 : Real.sqrt (v : ℝ) < 5 * (m : ℝ) := by linarith
    have hv2 : (v : ℝ) < 25 * (m : ℝ) ^ 2 := by
      have hss := Real.sq_sqrt hv'.le
      nlinarith [Real.sqrt_nonneg (v : ℝ)]
    exact ⟨by exact_mod_cast hm', by exact_mod_cast hv2⟩

theorem sharpeGt02_iff_Gt (rets : List ℚ) :
    (sharpeGt02 (mkStats rets).sharpe = true) ↔ (mkStats rets).sharpe.Gt (1/5) := by
  unfold mkStats
  by_cases h1 : rets.length ≤ 1
  · simp [h1, sharpeGt02, CSharpe.Gt]
  · by_cases h2 : sampleVar rets = 0
    · simp only [if_neg h1, if_pos h2]
      unfold sharpeGt02 CSharpe.Gt
      constructor
      · intro h
        exact absurd h (by simp)
      · intro h
        have : ((((1:ℚ)/5 : ℚ)) : ℝ) < 0 := h
        norm_num at this
    · simp only [if_neg h1, if_neg h2]
      unfold sharpeGt02 CSharpe.Gt
      exact msv_gt_fifth_iff (sampleMean rets) (sampleVar rets)
        (lt_of_le_of_ne (sampleVar_nonneg rets (by omega)) (Ne.symm h2))

theorem mem_goodFilter_iff (df : DF) (k : ℕ) (labels : List ℕ) (c : ℕ) :
    (c ∈ (List.range k).filter
        (isGoodClusterEntry
          ((UState.init df k).train labels).cluster_performance)) ↔
    ∃ st, ((UState.init df k).train labels).cluster_performance c = some st ∧
      5 ≤ st.size ∧ st.sharpe.Gt (1/5) ∧ 0 < st.mean_return ∧
      (9 : ℚ)/20 < st.win_rate := by
  rw [List.mem_filter, List.mem_range]
  unfold isGoodClusterEntry
  rw [train_cluster_performance]
  by_cases hc : c < k ∧ 0 < (clusterReturnsOf df labels c).length
  · rw [if_pos hc]
    constructor
    · rintro ⟨-, hp⟩
      simp only [Bool.and_eq_true, decide_eq_true_eq, goodPerformance] at hp
      exact ⟨mkStats (clusterReturnsOf df labels c), rfl, hp.1,
        (sharpeGt02_iff_Gt _).mp hp.2.1.1, hp.2.1.2, hp.2.2⟩
    · rintro ⟨st, hst, h5, hGt, hm, hw⟩
      have hst' : st = mkStats (clusterReturnsOf df labels c) := by
        injection hst.symm
      subst hst'
      refine ⟨hc.1, ?_⟩
      simp only [Bool.and_eq_true, decide_eq_true_eq, goodPerformance]
      exact ⟨h5, ⟨(sharpeGt02_iff_Gt _).mpr hGt, hm⟩, hw⟩
  · rw [if_neg hc]
    constructor
    · rintro ⟨hck, hp⟩
      simp at hp
    · rintro ⟨st, hst, -⟩
      exact absurd hst (by simp)

theorem ite_one_zero_cases (b : Bool) :
    (if b = true then (1 : ℕ) else 0) = 0 ∨ (if b = true then (1 : ℕ) else 0) = 1 := by
  cases b <;> simp

theorem ite_one_zero_eq_one (b : Bool) :
    ((if b = true then (1 : ℕ) else 0) = 1) ↔ b = true := by
  cases b <;> simp

/-- **C2.** For every feature frame (with no pre-existing `cluster`
column), every cluster count and every sklearn labelling of the rows,
`predict` after a single `train` succeeds and returns a series aligned to
the frame's rows whose entries are all 0 or 1; an entry is 1 exactly when
the day's cluster has recorded statistics with `size ≥ 5`,
`sharpe > 0.2` (read over the reals as `mean/std > 1/5`),
`mean_return > 0` and `win_rate > 0.45`, and the day itself passes
`30 < rsi < 70` and `vol ≤ mean(vol over the full window) × 1.5`. -/
theorem predict_signal_iff (df : DF) (k : ℕ) (labels : List ℕ)
    (hclu : "cluster" ∉ df.keys) (hlen : labels.length = df.nrows) :
    ∃ sig, ((UState.init df k).train labels).predict = .ok sig ∧
      sig.length = df.nrows ∧
      ∀ i, i < df.nrows →
        (sig.getD i 0 = 0 ∨ sig.getD i 0 = 1) ∧
        (sig.getD i 0 = 1 ↔
          ((∃ st, ((UState.init df k).train labels).cluster_performance
                (labels.getD i 0) = some st ∧
              5 ≤ st.size ∧ st.sharpe.Gt (1/5) ∧ 0 < st.mean_return ∧
              (9 : ℚ)/20 < st.win_rate) ∧
            (30 < (df.col "rsi").getD i 0 ∧ (df.col "rsi").getD i 0 < 70) ∧
            (df.col "vol").getD i 0 ≤
              sampleMean (df.col "vol") * (3/2))) := by
  have hpred : ((UState.init df k).train labels).predict = .ok (
      ((List.range k).filter
        (isGoodClusterEntry
          ((UState.init df k).train labels).cluster_performance)).foldl
      (fun (preds : List ℕ) (c : ℕ) => applyMask preds fun (i : ℕ) =>
        decide (((df.insertCol "cluster"
            (labels.map fun (l : ℕ) => (l : ℚ))).col "cluster").getD i 0 =
          (c : ℚ)) &&
        (decide (30 < ((df.insertCol "cluster"
              (labels.map fun (l : ℕ) => (l : ℚ))).col "rsi").getD i 0) &&
          decide (((df.insertCol "cluster"
              (labels.map fun (l : ℕ) => (l : ℚ))).col "rsi").getD i 0 < 70)) &&
        decide (((df.insertCol "cluster"
              (labels.map fun (l : ℕ) => (l : ℚ))).col "vol").getD i 0 ≤
          sampleMean ((df.insertCol "cluster"
              (labels.map fun (l : ℕ) => (l : ℚ))).col "vol") * (3/2)))
      (List.replicate
        (df.insertCol "cluster" (labels.map fun (l : ℕ) => (l : ℚ))).nrows
        0)) := rfl
  rw [hpred]
  have hn := nrows_insertCol df labels hclu hlen
  have hcolc := col_insertCol_self df (labels.map fun (l : ℕ) => (l : ℚ)) hclu
  have hcolr := col_insertCol_other df (labels.map fun (l : ℕ) => (l : ℚ)) "rsi"
    (by decide) hclu
  have hcolv := col_insertCol_other df (labels.map fun (l : ℕ) => (l : ℚ)) "vol"
    (by decide) hclu
  rw [hcolc, hcolr, hcolv, hn]
  refine ⟨_, rfl, ?_, ?_⟩
  · rw [foldl_applyMask_length, List.length_replicate]
  · intro i hi
    have hstart : i < (List.replicate df.nrows (0 : ℕ)).length := by
      rw [List.length_replicate]
      exact hi
    rw [foldl_applyMask_getD _ _ _ i hstart]
    have hrep : (List.replicate df.nrows (0 : ℕ)).getD i 0 = 0 := by
      rw [List.getD_eq_getElem?_getD]
      cases h : (List.replicate df.nrows (0 : ℕ))[i]? with
      | none => rfl
      | some v =>
          have := List.getElem?_mem h
          rw [List.eq_of_mem_replicate this]
          rfl
    rw [hrep]
    have hgetD : (labels.map fun (l : ℕ) => (l : ℚ)).getD i 0 =
        ((labels.getD i 0 : ℕ) : ℚ) := by
      have hil : i < labels.length := by rw [hlen]; exact hi
      rw [List.getD_eq_getElem?_getD, List.getElem?_map,
        List.getElem?_eq_getElem hil, List.getD_eq_getElem?_getD,
        List.getElem?_eq_getElem hil]
      rfl
    refine ⟨ite_one_zero_cases _, ?_⟩
    rw [ite_one_zero_eq_one, List.any_eq_true]
    constructor
    · rintro ⟨c, hcmem, hcmask⟩
      simp only [Bool.and_eq_true, decide_eq_true_eq, hgetD,
        Nat.cast_inj] at hcmask
      obtain ⟨⟨hlab, hrsi⟩, hvol⟩ := hcmask
      rw [← hlab] at hcmem
      exact ⟨(mem_goodFilter_iff df k labels _).mp hcmem, hrsi, hvol⟩
    · rintro ⟨hgood, hrsi, hvol⟩
      refine ⟨labels.getD i 0,
        (mem_goodFilter_iff df k labels _).mpr hgood, ?_⟩
      simp only [Bool.and_eq_true, decide_eq_true_eq, hgetD, Nat.cast_inj]
      exact ⟨⟨trivial, hrsi⟩, hvol⟩

/-- Witness for C2 at a concrete one-column frame and labelling. -/
theorem predict_signal_iff_witness :
    ∃ sig, ((UState.init [("return_1d", [(0 : ℚ), 0])] 1).train [0, 0]).predict =
        .ok sig ∧ sig.length = 2 := by
  obtain ⟨sig, h1, h2, -⟩ := predict_signal_iff [("return_1d", [(0 : ℚ), 0])] 1
    [0, 0] (by decide) (by decide)
  exact ⟨sig, h1, h2⟩

/-! ## C1: the clustering orchestration performs exactly one attempt -/

/-- Counterexample to C1 as stated: on a 20-row frame with
`n_clusters = 2`, `min_cluster_size = 3` and a labelling whose cluster 1
has a single member, the single attempt is invalid in the claim's sense
(a cluster of size 1 < 3), yet the orchestration succeeds — it validates
nothing after training and never raises a `NoValidClusteringError` (which
does not exist anywhere in the source). -/
theorem pipeline_no_validation_counterexample :
    (get_stock_prediction_core demoFrame demoIdx 2 3 demoLabels).isOk = true ∧
    (((UState.init demoFrame 2).train demoLabels).cluster_performance 1).map
      ClusterStats.size = some 1 ∧
    (1 : ℕ) < 3 := by
  refine ⟨?_, ?_, by decide⟩
  · with_unfolding_all rfl
  · with_unfolding_all rfl

/-- **C1 (amended).** For every feature table, index, configuration and
labelling, the orchestration of `get_stock_prediction` performs exactly one
training attempt: it succeeds iff the pre-clustering sufficiency check
`len(features) ≥ max(20, n_clusters × min_cluster_size)` passes (the only
use of `min_cluster_size`), there is no multi-attempt search, no scoring,
no post-training validation of cluster sizes, and no
`NoValidClusteringError`; on success the returned signal series is exactly
the single trained model's `predict` output. -/
theorem pipeline_single_attempt (features : DF) (idx : List ℤ)
    (n_clusters min_cluster_size : ℕ) (labels : List ℕ) :
    ((get_stock_prediction_core features idx n_clusters min_cluster_size
        labels).isOk = true ↔
      max 20 (n_clusters * min_cluster_size) ≤ features.nrows) ∧
    ∀ r, get_stock_prediction_core features idx n_clusters min_cluster_size
        labels = .ok r →
      ((UState.init features n_clusters).train labels).predict =
        .ok r.predictions := by
  unfold get_stock_prediction_core
  by_cases hth : features.nrows < max 20 (n_clusters * min_cluster_size)
  · rw [if_pos hth]
    constructor
    · constructor
      · intro h
        exact absurd h (by simp [Except.isOk, Except.toBool])
      · intro h
        omega
    · intro r h
      exact absurd h (by simp)
  · rw [if_neg hth]
    refine ⟨⟨fun _ => by omega, fun _ => rfl⟩, fun r h => ?_⟩
    have hr := (Except.ok.inj h.symm)
    rw [hr]
    rfl

/-- Witness for C1: the sufficiency bound recovered from a successful
concrete run. -/
theorem pipeline_single_attempt_witness :
    max 20 (2 * 3) ≤ DF.nrows demoFrame :=
  (pipeline_single_attempt demoFrame demoIdx 2 3 demoLabels).1.mp
    (by with_unfolding_all rfl)

end Stock
